import Mathlib

/-!
Verification of the wireguard-udp-proxy relay (src/src/main.rs).

Shallow embedding conventions:
* `SocketAddr` is used only for equality tests and as an inert value, so it
  is modelled as `Nat` (`Addr`).
* `Instant`/`Duration` are modelled as `Nat` seconds; `Instant::now()` values
  are passed explicitly as a `now : Nat` argument.
* Raw datagrams are `List Nat`, each element a byte value (< 256 on real
  input; the definitions are total on all of `Nat`).
* `HashMap<u32, ExpiringSocket>` is modelled extensionally as
  `Nat → Option ExpiringSocket`; `retain` and `insert` become pointwise
  updates, matching the map's observable lookup behaviour.
-/

/-- Network address (Rust `SocketAddr`); only equality is ever used. -/
abbrev Addr := Nat

/-- `const SESSION_VALID_TIME: Duration = Duration::from_secs(180);` -/
def SESSION_VALID_TIME : Nat := 180

/-- The `WgPacket` enum from main.rs. -/
inductive WgPacket where
  | HandShakeInitiation (sender : Nat) : WgPacket
  | HandShakeResponse (sender : Nat) (receiver : Nat) : WgPacket
  | Data (receiver : Nat) : WgPacket
  | Cookie (receiver : Nat) : WgPacket
deriving DecidableEq, Repr

/-- Byte access `buf[i]`; every use in `parse` is guarded by a length check,
so the default value is never observed on in-range input. -/
def byteAt (buf : List Nat) (i : Nat) : Nat := buf.getD i 0

/-- `u32::from_le_bytes(buf[off..off+4].try_into().unwrap())`. -/
def u32FromLe (buf : List Nat) (off : Nat) : Nat :=
  byteAt buf off + 256 * byteAt buf (off + 1) + 65536 * byteAt buf (off + 2)
    + 16777216 * byteAt buf (off + 3)

/-- `WgPacket::parse` from main.rs lines 40-68. -/
def WgPacket.parse (buf : List Nat) : Option WgPacket :=
  -- smallest packet is cookie which is 10 bytes
  if buf.length < 10 then none
  else
    match byteAt buf 0 with
    | 1 => some (.HandShakeInitiation (u32FromLe buf 4))
    | 2 =>
      if buf.length < 12 then none
      else some (.HandShakeResponse (u32FromLe buf 4) (u32FromLe buf 8))
    | 3 => some (.Cookie (u32FromLe buf 4))
    | 4 => some (.Data (u32FromLe buf 4))
    | _ => none

/-- `WgPacket::receiver` from main.rs lines 70-77. -/
def WgPacket.receiver : WgPacket → Option Nat
  | .HandShakeInitiation _ => none
  | .HandShakeResponse _ receiver => some receiver
  | .Data receiver => some receiver
  | .Cookie receiver => some receiver

/-- The `ExpiringSocket` struct: an address plus its expiry instant. -/
structure ExpiringSocket where
  socket : Addr
  expires : Nat
deriving DecidableEq, Repr

/-- `ExpiringSocket::new(socket)` evaluated at instant `now`:
`expires = Instant::now().add(SESSION_VALID_TIME)`. -/
def ExpiringSocket.new (socket : Addr) (now : Nat) : ExpiringSocket :=
  ⟨socket, now + SESSION_VALID_TIME⟩

/-- The session table `HashMap<u32, ExpiringSocket>`, modelled extensionally. -/
def Table := Nat → Option ExpiringSocket

/-- The empty table `HashMap::new()`. -/
def Table.empty : Table := fun _ => none

/-- `receivers.retain(|_, expiring_socket| expiring_socket.expires > now)`. -/
def Table.sweep (t : Table) (now : Nat) : Table := fun j =>
  match t j with
  | some e => if now < e.expires then some e else none
  | none => none

/-- `receivers.insert(sender, ExpiringSocket::new(src_addr))`. -/
def Table.insert (t : Table) (i : Nat) (e : ExpiringSocket) : Table := fun j =>
  if j = i then some e else t j

/-- The sweep-then-insert performed in the HandShakeInitiation arm
(main.rs lines 124-131): expire everything at `now`, then bind `i` to `a`. -/
def Table.sweepAndUpsert (t : Table) (i : Nat) (a : Addr) (now : Nat) : Table :=
  (t.sweep now).insert i (ExpiringSocket.new a now)

/-- `receivers.get(i)` followed by `.socket`, as used in the target branch. -/
def Table.lookup (t : Table) (i : Nat) : Option Addr :=
  (t i).map ExpiringSocket.socket

/-- The routing decision of the worker loop (main.rs lines 113-138, and the
identical lines 179-204 of `main_threaded`): from the parsed packet, the
source address, the target address and the table, produce the updated table
and the chosen destination (`none` = `continue`, i.e. drop). -/
def route (packet : WgPacket) (src_addr target_addr : Addr) (receivers : Table)
    (now : Nat) : Table × Option Addr :=
  if src_addr = target_addr then
    -- target isn't allowed to initiate
    match packet.receiver.bind (fun receiver => receivers receiver) with
    | some to_addr => (receivers, some to_addr.socket)
    | none => (receivers, none)
  else
    match packet with
    | .HandShakeInitiation sender =>
        (receivers.sweepAndUpsert sender src_addr now, some target_addr)
    | .HandShakeResponse _ _ => (receivers, none) -- only target may respond
    | _ => (receivers, some target_addr)

/-- One iteration of the worker loop after `recv_from` (main.rs lines
100-145): parse the received bytes, drop if unparseable, otherwise route;
when a destination is produced the loop sends exactly `buf` to it. -/
def workerStep (target_addr : Addr) (receivers : Table) (buf : List Nat)
    (src_addr : Addr) (now : Nat) : Table × Option (Addr × List Nat) :=
  match WgPacket.parse buf with
  | none => (receivers, none) -- ignore invalid packets
  | some packet =>
      let res := route packet src_addr target_addr receivers now
      (res.1, res.2.map (fun d => (d, buf)))

/-- Little-endian 4-byte encoding of a u32 value, for round-trip statements. -/
def toLeBytes (n : Nat) : List Nat :=
  [n % 256, n / 256 % 256, n / 65536 % 256, n / 16777216 % 256]

/-! ## Claims about the routing decision -/

/-- C1: a HandshakeInitiation arriving from a non-target source causes
`sweepAndUpsert sender src_addr now` on the table and is forwarded to the
configured target address. -/
theorem initiation_from_peer_upserts_and_routes_to_target
    (sender : Nat) (src_addr target_addr : Addr) (t : Table) (now : Nat)
    (h : src_addr ≠ target_addr) :
    route (.HandShakeInitiation sender) src_addr target_addr t now
      = (t.sweepAndUpsert sender src_addr now, some target_addr) := by
  simp [route, h]

/-- Witness for C1: the spec scenario, sender 100 from address 7 with target 3
on the empty table; the table binds 100 to 7 and the destination is 3. -/
theorem initiation_from_peer_upserts_and_routes_to_target_witness :
    route (.HandShakeInitiation 100) 7 3 Table.empty 0
      = (Table.empty.sweepAndUpsert 100 7 0, some 3)
    ∧ (Table.empty.sweepAndUpsert 100 7 0).lookup 100 = some 7 := by
  refine ⟨initiation_from_peer_upserts_and_routes_to_target 100 7 3 Table.empty 0 (by decide), ?_⟩
  simp [Table.sweepAndUpsert, Table.insert, Table.sweep, Table.empty, Table.lookup,
    ExpiringSocket.new]

/-- Helper: the target branch of `route`, unfolded to a case split on the
receiver field and the table lookup. -/
lemma route_from_target
    (p : WgPacket) (src_addr target_addr : Addr) (t : Table) (now : Nat)
    (h : src_addr = target_addr) :
    route p src_addr target_addr t now
      = match p.receiver with
        | none => (t, none)
        | some r =>
          match t r with
          | none => (t, none)
          | some e => (t, some e.socket) := by
  subst h
  simp only [route, if_pos rfl]
  cases hr : p.receiver with
  | none => simp
  | some r =>
    cases ht : t r with
    | none => simp [ht]
    | some e => simp [ht]

/-- C2: when the source address equals the target address, the datagram is
dropped (table unchanged, no destination) if the message has no receiver
field or the index is absent from the table; otherwise the destination is
the stored address. -/
theorem target_traffic_routed_by_receiver_lookup
    (p : WgPacket) (src_addr target_addr : Addr) (t : Table) (now : Nat)
    (h : src_addr = target_addr) :
    route p src_addr target_addr t now
      = match p.receiver with
        | none => (t, none)
        | some r =>
          match t r with
          | none => (t, none)
          | some e => (t, some e.socket) :=
  route_from_target p src_addr target_addr t now h

/-- Witness for C2: the spec scenario, the target (address 3) sends a
HandshakeResponse with receiver 5 while the table is empty; the datagram is
dropped. -/
theorem target_traffic_routed_by_receiver_lookup_witness :
    route (.HandShakeResponse 999 5) 3 3 Table.empty 0 = (Table.empty, none) := by
  have h := target_traffic_routed_by_receiver_lookup (.HandShakeResponse 999 5) 3 3
    Table.empty 0 rfl
  simpa [WgPacket.receiver, Table.empty] using h

/-- C5: from a non-target source, a HandshakeResponse is dropped with the
table unchanged, while Cookie and Data are forwarded to the target. -/
theorem peer_response_dropped_cookie_data_to_target
    (s r : Nat) (src_addr target_addr : Addr) (t : Table) (now : Nat)
    (h : src_addr ≠ target_addr) :
    route (.HandShakeResponse s r) src_addr target_addr t now = (t, none)
    ∧ route (.Cookie r) src_addr target_addr t now = (t, some target_addr)
    ∧ route (.Data r) src_addr target_addr t now = (t, some target_addr) := by
  refine ⟨?_, ?_, ?_⟩ <;> simp [route, h]

/-- Witness for C5: concrete peer address 9, target 3, arbitrary indices. -/
theorem peer_response_dropped_cookie_data_to_target_witness :
    route (.HandShakeResponse 1 2) 9 3 Table.empty 0 = (Table.empty, none)
    ∧ route (.Cookie 2) 9 3 Table.empty 0 = (Table.empty, some 3)
    ∧ route (.Data 2) 9 3 Table.empty 0 = (Table.empty, some 3) :=
  peer_response_dropped_cookie_data_to_target 1 2 9 3 Table.empty 0 (by decide)

/-! ## Claims about the session table -/

/-- C3: `sweepAndUpsert i a now` first removes exactly the entries whose
expiry is `<= now`, then binds `i` to `{a, now + SESSION_VALID_TIME}` with
`SESSION_VALID_TIME = 180`; a later upsert for the same index overwrites the
earlier binding (last-writer-wins). -/
theorem sweepAndUpsert_spec
    (t : Table) (i : Nat) (a : Addr) (now j : Nat) (b : Addr) (later : Nat) :
    SESSION_VALID_TIME = 180
    ∧ t.sweepAndUpsert i a now j
        = (if j = i then some ⟨a, now + SESSION_VALID_TIME⟩
           else match t j with
                | some e => if e.expires ≤ now then none else some e
                | none => none)
    ∧ (t.sweepAndUpsert i a now).sweepAndUpsert i b later i
        = some ⟨b, later + SESSION_VALID_TIME⟩ := by
  refine ⟨rfl, ?_, ?_⟩
  · simp only [Table.sweepAndUpsert, Table.insert, Table.sweep, ExpiringSocket.new]
    by_cases hj : j = i
    · simp [hj]
    · simp only [hj, if_false]
      cases t j with
      | none => rfl
      | some e =>
        by_cases he : now < e.expires
        · simp [he, Nat.not_le_of_lt he]
        · simp [he, Nat.le_of_not_lt he]
  · simp [Table.sweepAndUpsert, Table.insert, ExpiringSocket.new]

/-- C4: `lookup` does not consult the clock: an entry whose expiry has
already passed is still returned by `lookup`, and a target-originated
datagram naming it as receiver is still routed to its stored address; the
entry disappears only when a HandshakeInitiation for any other index
triggers the sweep inside `sweepAndUpsert`. -/
theorem lookup_ignores_expiry
    (t : Table) (i : Nat) (e : ExpiringSocket) (now : Nat)
    (p : WgPacket) (target_addr : Addr)
    (hmem : t i = some e) (hexpired : e.expires ≤ now)
    (hrecv : p.receiver = some i) :
    t.lookup i = some e.socket
    ∧ route p target_addr target_addr t now = (t, some e.socket)
    ∧ (∀ k b, k ≠ i → (t.sweepAndUpsert k b now) i = none) := by
  refine ⟨?_, ?_, ?_⟩
  · simp [Table.lookup, hmem]
  · simp [route, hrecv, hmem]
  · intro k b hk
    simp only [Table.sweepAndUpsert, Table.insert, Table.sweep, ExpiringSocket.new]
    rw [if_neg (fun hik => hk hik.symm), hmem]
    simp [Nat.not_lt_of_le hexpired]

/-- Witness for C4: a table whose single entry for index 5 expired at time 2
is queried at time 10; lookup still returns address 8, the target's Data
packet with receiver 5 is routed to 8, and an initiation for index 7 sweeps
entry 5 away. -/
theorem lookup_ignores_expiry_witness :
    (Table.empty.insert 5 ⟨8, 2⟩) 5 = some ⟨8, 2⟩
    ∧ (2 : Nat) ≤ 10
    ∧ (WgPacket.Data 5).receiver = some 5
    ∧ (Table.empty.insert 5 ⟨8, 2⟩).lookup 5 = some 8
    ∧ route (.Data 5) 3 3 (Table.empty.insert 5 ⟨8, 2⟩) 10
        = (Table.empty.insert 5 ⟨8, 2⟩, some 8)
    ∧ ((Table.empty.insert 5 ⟨8, 2⟩).sweepAndUpsert 7 9 10) 5 = none := by
  have h := lookup_ignores_expiry (Table.empty.insert 5 ⟨8, 2⟩) 5 ⟨8, 2⟩ 10
    (.Data 5) 3 (by simp [Table.insert]) (by decide) rfl
  exact ⟨by simp [Table.insert], by decide, rfl, h.1, h.2.1,
    h.2.2 7 9 (by decide)⟩

/-- C10: immediately after `sweepAndUpsert i a now`, every entry of the table
(the fresh one included) expires strictly later than `now`, and index `i` is
bound to address `a`. -/
theorem sweepAndUpsert_fresh_invariant
    (t : Table) (i : Nat) (a : Addr) (now : Nat) :
    (∀ j e, t.sweepAndUpsert i a now j = some e → now < e.expires)
    ∧ t.sweepAndUpsert i a now i = some ⟨a, now + SESSION_VALID_TIME⟩
    ∧ (t.sweepAndUpsert i a now).lookup i = some a := by
  refine ⟨?_, by simp [Table.sweepAndUpsert, Table.insert, ExpiringSocket.new], ?_⟩
  · intro j e hj
    simp only [Table.sweepAndUpsert, Table.insert, Table.sweep,
      ExpiringSocket.new] at hj
    by_cases hji : j = i
    · subst hji
      rw [if_pos rfl] at hj
      cases hj
      simp only [SESSION_VALID_TIME]
      omega
    · simp only [hji, if_false] at hj
      cases htj : t j with
      | none => simp [htj] at hj
      | some e0 =>
        simp only [htj] at hj
        by_cases he : now < e0.expires
        · simp only [he, if_pos, Option.some.injEq] at hj
          subst hj
          exact he
        · simp [he] at hj
  · simp [Table.sweepAndUpsert, Table.insert, Table.lookup, ExpiringSocket.new]

/-- Witness for C10: upserting index 0 to address 5 at time 10 on the empty
table yields an entry expiring at 190 > 10, bound to 5. -/
theorem sweepAndUpsert_fresh_invariant_witness :
    (10 : Nat) < (ExpiringSocket.mk 5 190).expires
    ∧ Table.empty.sweepAndUpsert 0 5 10 0 = some ⟨5, 190⟩
    ∧ (Table.empty.sweepAndUpsert 0 5 10).lookup 0 = some 5 := by
  have h := sweepAndUpsert_fresh_invariant Table.empty 0 5 10
  have hmem : Table.empty.sweepAndUpsert 0 5 10 0 = some ⟨5, 190⟩ := by
    simp [Table.sweepAndUpsert, Table.insert, Table.sweep, Table.empty,
      ExpiringSocket.new, SESSION_VALID_TIME]
  exact ⟨h.1 0 ⟨5, 190⟩ hmem, hmem, h.2.2⟩

/-! ## Frame and invariant claims -/

/-- C8: whenever a worker iteration forwards a datagram, the bytes sent to
the resolved destination are exactly the bytes received; routing chooses an
address and never rewrites the payload. -/
theorem forwarded_bytes_unchanged
    (target_addr : Addr) (t : Table) (buf : List Nat) (src_addr : Addr)
    (now : Nat) (dest : Addr) (out : List Nat)
    (h : (workerStep target_addr t buf src_addr now).2 = some (dest, out)) :
    out = buf := by
  unfold workerStep at h
  cases hp : WgPacket.parse buf with
  | none => simp [hp] at h
  | some packet =>
    simp only [hp] at h
    cases hd : (route packet src_addr target_addr t now).2 with
    | none => simp [hd] at h
    | some d =>
      rw [hd] at h
      simp only [Option.map] at h
      injection h with hpair
      exact (congrArg Prod.snd hpair).symm

/-- Witness for C8: a 10-byte Cookie datagram from peer 9 with target 3 is
forwarded to 3 carrying exactly the received bytes. -/
theorem forwarded_bytes_unchanged_witness :
    (workerStep 3 Table.empty [3, 0, 0, 0, 2, 0, 0, 0, 0, 0] 9 0).2
      = some (3, [3, 0, 0, 0, 2, 0, 0, 0, 0, 0])
    ∧ [3, 0, 0, 0, 2, 0, 0, 0, 0, 0] = [3, 0, 0, 0, 2, 0, 0, 0, 0, 0] := by
  have hstep : (workerStep 3 Table.empty [3, 0, 0, 0, 2, 0, 0, 0, 0, 0] 9 0).2
      = some (3, [3, 0, 0, 0, 2, 0, 0, 0, 0, 0]) := by
    simp [workerStep, WgPacket.parse, byteAt, u32FromLe, route, Table.empty]
  exact ⟨hstep,
    forwarded_bytes_unchanged 3 Table.empty [3, 0, 0, 0, 2, 0, 0, 0, 0, 0] 9 0 3
      [3, 0, 0, 0, 2, 0, 0, 0, 0, 0] hstep ▸ rfl⟩

/-- C9: if every address stored in the table differs from the target address,
this still holds after any routing step (entries are only ever inserted with
a non-target source address), and a target-originated datagram is never
routed back to the target itself. -/
theorem table_never_stores_target
    (p : WgPacket) (src_addr target_addr : Addr) (t : Table) (now : Nat)
    (hinv : ∀ j e, t j = some e → e.socket ≠ target_addr) :
    (∀ j e, (route p src_addr target_addr t now).1 j = some e
       → e.socket ≠ target_addr)
    ∧ (src_addr = target_addr
       → ∀ d, (route p src_addr target_addr t now).2 = some d
       → d ≠ target_addr) := by
  constructor
  · intro j e hj
    by_cases hsrc : src_addr = target_addr
    · rw [route_from_target p src_addr target_addr t now hsrc] at hj
      cases hr : p.receiver with
      | none =>
        simp only [hr] at hj
        exact hinv j e hj
      | some r =>
        simp only [hr] at hj
        cases ht : t r with
        | none =>
          simp only [ht] at hj
          exact hinv j e hj
        | some e0 =>
          simp only [ht] at hj
          exact hinv j e hj
    · cases p with
      | HandShakeInitiation sender =>
        simp only [route, hsrc, if_false] at hj
        simp only [Table.sweepAndUpsert, Table.insert, Table.sweep,
          ExpiringSocket.new] at hj
        by_cases hji : j = sender
        · subst hji
          rw [if_pos rfl] at hj
          cases hj
          exact hsrc
        · simp only [hji, if_false] at hj
          cases htj : t j with
          | none => simp [htj] at hj
          | some e0 =>
            simp only [htj] at hj
            by_cases he : now < e0.expires
            · rw [if_pos he] at hj
              injection hj with hje
              subst hje
              exact hinv j e0 htj
            · simp [he] at hj
      | HandShakeResponse s r =>
        simp only [route, hsrc, if_false] at hj
        exact hinv j e hj
      | Data r =>
        simp only [route, hsrc, if_false] at hj
        exact hinv j e hj
      | Cookie r =>
        simp only [route, hsrc, if_false] at hj
        exact hinv j e hj
  · intro hsrc d hd
    rw [route_from_target p src_addr target_addr t now hsrc] at hd
    cases hr : p.receiver with
    | none => simp [hr] at hd
    | some r =>
      simp only [hr] at hd
      cases ht : t r with
      | none => simp [ht] at hd
      | some e0 =>
        simp only [ht, Prod.snd, Option.some.injEq] at hd
        subst hd
        exact hinv r e0 ht

/-- Witness for C9: a table binding 5 to peer address 8 (target is 3); the
target's Data packet with receiver 5 is routed to 8, which differs from 3. -/
theorem table_never_stores_target_witness :
    (route (.Data 5) 3 3 (Table.empty.insert 5 ⟨8, 200⟩) 0).2 = some 8
    ∧ (8 : Addr) ≠ 3 := by
  have hroute : (route (.Data 5) 3 3 (Table.empty.insert 5 ⟨8, 200⟩) 0).2 = some 8 := by
    simp [route, WgPacket.receiver, Table.insert, Table.empty]
  have hinv : ∀ j e, (Table.empty.insert 5 ⟨8, 200⟩) j = some e → e.socket ≠ 3 := by
    intro j e hj
    simp only [Table.insert, Table.empty] at hj
    by_cases hj5 : j = 5
    · subst hj5
      rw [if_pos rfl] at hj
      injection hj with hje
      subst hje
      decide
    · simp [hj5] at hj
  exact ⟨hroute,
    (table_never_stores_target (.Data 5) 3 3 (Table.empty.insert 5 ⟨8, 200⟩) 0 hinv).2
      rfl 8 hroute⟩

/-! ## Claims about the packet classifier -/

/-- Helper: parsing a type-1 datagram of sufficient length. -/
lemma parse_type1 (buf : List Nat) (h0 : byteAt buf 0 = 1) (hlen : 10 ≤ buf.length) :
    WgPacket.parse buf = some (.HandShakeInitiation (u32FromLe buf 4)) := by
  unfold WgPacket.parse
  rw [if_neg (by omega), h0]

/-- Helper: parsing a type-2 datagram of sufficient length. -/
lemma parse_type2 (buf : List Nat) (h0 : byteAt buf 0 = 2) (hlen : 12 ≤ buf.length) :
    WgPacket.parse buf = some (.HandShakeResponse (u32FromLe buf 4) (u32FromLe buf 8)) := by
  unfold WgPacket.parse
  rw [if_neg (by omega), h0]
  simp only [if_neg (by omega : ¬ buf.length < 12)]

/-- Helper: parsing a type-3 datagram of sufficient length. -/
lemma parse_type3 (buf : List Nat) (h0 : byteAt buf 0 = 3) (hlen : 10 ≤ buf.length) :
    WgPacket.parse buf = some (.Cookie (u32FromLe buf 4)) := by
  unfold WgPacket.parse
  rw [if_neg (by omega), h0]

/-- Helper: parsing a type-4 datagram of sufficient length. -/
lemma parse_type4 (buf : List Nat) (h0 : byteAt buf 0 = 4) (hlen : 10 ≤ buf.length) :
    WgPacket.parse buf = some (.Data (u32FromLe buf 4)) := by
  unfold WgPacket.parse
  rw [if_neg (by omega), h0]

/-- C6: `parse` is total, and yields no packet (Unparseable) whenever the
datagram is shorter than 10 bytes, or its first byte is none of 1, 2, 3, 4,
or its first byte is 2 but the length is below 12. -/
theorem parse_unparseable_conditions (buf : List Nat)
    (h : buf.length < 10
      ∨ (byteAt buf 0 ≠ 1 ∧ byteAt buf 0 ≠ 2 ∧ byteAt buf 0 ≠ 3 ∧ byteAt buf 0 ≠ 4)
      ∨ (byteAt buf 0 = 2 ∧ buf.length < 12)) :
    WgPacket.parse buf = none := by
  unfold WgPacket.parse
  rcases h with h | ⟨h1, h2, h3, h4⟩ | ⟨h2, hlen⟩
  · rw [if_pos h]
  · by_cases hl : buf.length < 10
    · rw [if_pos hl]
    · rw [if_neg hl]
      generalize hb : byteAt buf 0 = n
      rw [hb] at h1 h2 h3 h4
      rcases n with _ | _ | _ | _ | _ | n
      · rfl
      · exact absurd rfl h1
      · exact absurd rfl h2
      · exact absurd rfl h3
      · exact absurd rfl h4
      · rfl
  · by_cases hl : buf.length < 10
    · rw [if_pos hl]
    · rw [if_neg hl, h2]
      simp [hlen]

/-- Witness for C6: a 5-byte datagram, a 10-byte datagram of unknown type 9,
and type-2 datagrams of lengths exactly 10 and 11 are all unparseable. -/
theorem parse_unparseable_conditions_witness :
    WgPacket.parse [1, 2, 3, 4, 5] = none
    ∧ WgPacket.parse [9, 0, 0, 0, 0, 0, 0, 0, 0, 0] = none
    ∧ WgPacket.parse [2, 0, 0, 0, 0, 0, 0, 0, 0, 0] = none
    ∧ WgPacket.parse [2, 0, 0, 0, 0, 0, 0, 0, 0, 0, 0] = none := by
  refine ⟨?_, ?_, ?_, ?_⟩
  · exact parse_unparseable_conditions [1, 2, 3, 4, 5] (Or.inl (by decide))
  · exact parse_unparseable_conditions [9, 0, 0, 0, 0, 0, 0, 0, 0, 0]
      (Or.inr (Or.inl (by refine ⟨?_, ?_, ?_, ?_⟩ <;> decide)))
  · exact parse_unparseable_conditions [2, 0, 0, 0, 0, 0, 0, 0, 0, 0]
      (Or.inr (Or.inr ⟨by decide, by decide⟩))
  · exact parse_unparseable_conditions [2, 0, 0, 0, 0, 0, 0, 0, 0, 0, 0]
      (Or.inr (Or.inr ⟨by decide, by decide⟩))

/-- Helper: a u32 value below 2^32 is reconstructed from its four
little-endian base-256 digits. -/
lemma le_digits_reconstruct (s : Nat) (hs : s < 4294967296) :
    s % 256 + 256 * (s / 256 % 256) + 65536 * (s / 65536 % 256)
      + 16777216 * (s / 16777216 % 256) = s := by
  omega

/-- C7: round-trip — parsing any valid encoding of the four message types
(the type byte at offset 0, little-endian u32 fields at their offsets,
arbitrary bytes elsewhere, sufficient length) recovers exactly the encoded
field values. For HandshakeInitiation, Cookie and Data the sufficient
length is 10, so `tail` carries at least 2 bytes; a HandshakeResponse is
already 12 bytes before its tail `rtail`, which is therefore arbitrary
(the minimum-length 12-byte Response is `rtail = []`). -/
theorem parse_roundtrip
    (s r r1 r2 r3 : Nat) (tail rtail : List Nat)
    (hs : s < 4294967296) (hr : r < 4294967296) (htail : 2 ≤ tail.length) :
    WgPacket.parse (1 :: r1 :: r2 :: r3 :: (toLeBytes s ++ tail))
      = some (.HandShakeInitiation s)
    ∧ WgPacket.parse (2 :: r1 :: r2 :: r3 :: (toLeBytes s ++ (toLeBytes r ++ rtail)))
      = some (.HandShakeResponse s r)
    ∧ WgPacket.parse (3 :: r1 :: r2 :: r3 :: (toLeBytes r ++ tail))
      = some (.Cookie r)
    ∧ WgPacket.parse (4 :: r1 :: r2 :: r3 :: (toLeBytes r ++ tail))
      = some (.Data r) := by
  have hlen1 : 10 ≤ (1 :: r1 :: r2 :: r3 :: (toLeBytes s ++ tail)).length := by
    simp only [toLeBytes, List.length_cons, List.length_append]
    omega
  have hlen2 : 12 ≤ (2 :: r1 :: r2 :: r3
      :: (toLeBytes s ++ (toLeBytes r ++ rtail))).length := by
    simp only [toLeBytes, List.length_cons, List.length_append]
    omega
  have hlen3 : 10 ≤ (3 :: r1 :: r2 :: r3 :: (toLeBytes r ++ tail)).length := by
    simp only [toLeBytes, List.length_cons, List.length_append]
    omega
  have hlen4 : 10 ≤ (4 :: r1 :: r2 :: r3 :: (toLeBytes r ++ tail)).length := by
    simp only [toLeBytes, List.length_cons, List.length_append]
    omega
  have hs4 : u32FromLe (1 :: r1 :: r2 :: r3 :: (toLeBytes s ++ tail)) 4 = s := by
    have : u32FromLe (1 :: r1 :: r2 :: r3 :: (toLeBytes s ++ tail)) 4
        = s % 256 + 256 * (s / 256 % 256) + 65536 * (s / 65536 % 256)
          + 16777216 * (s / 16777216 % 256) := rfl
    rw [this]
    exact le_digits_reconstruct s hs
  have hs24 : u32FromLe (2 :: r1 :: r2 :: r3
      :: (toLeBytes s ++ (toLeBytes r ++ rtail))) 4 = s := by
    have : u32FromLe (2 :: r1 :: r2 :: r3 :: (toLeBytes s ++ (toLeBytes r ++ rtail))) 4
        = s % 256 + 256 * (s / 256 % 256) + 65536 * (s / 65536 % 256)
          + 16777216 * (s / 16777216 % 256) := rfl
    rw [this]
    exact le_digits_reconstruct s hs
  have hr28 : u32FromLe (2 :: r1 :: r2 :: r3
      :: (toLeBytes s ++ (toLeBytes r ++ rtail))) 8 = r := by
    have : u32FromLe (2 :: r1 :: r2 :: r3 :: (toLeBytes s ++ (toLeBytes r ++ rtail))) 8
        = r % 256 + 256 * (r / 256 % 256) + 65536 * (r / 65536 % 256)
          + 16777216 * (r / 16777216 % 256) := rfl
    rw [this]
    exact le_digits_reconstruct r hr
  have hr34 : u32FromLe (3 :: r1 :: r2 :: r3 :: (toLeBytes r ++ tail)) 4 = r := by
    have : u32FromLe (3 :: r1 :: r2 :: r3 :: (toLeBytes r ++ tail)) 4
        = r % 256 + 256 * (r / 256 % 256) + 65536 * (r / 65536 % 256)
          + 16777216 * (r / 16777216 % 256) := rfl
    rw [this]
    exact le_digits_reconstruct r hr
  have hr44 : u32FromLe (4 :: r1 :: r2 :: r3 :: (toLeBytes r ++ tail)) 4 = r := by
    have : u32FromLe (4 :: r1 :: r2 :: r3 :: (toLeBytes r ++ tail)) 4
        = r % 256 + 256 * (r / 256 % 256) + 65536 * (r / 65536 % 256)
          + 16777216 * (r / 16777216 % 256) := rfl
    rw [this]
    exact le_digits_reconstruct r hr
  refine ⟨?_, ?_, ?_, ?_⟩
  · rw [parse_type1 (1 :: r1 :: r2 :: r3 :: (toLeBytes s ++ tail)) rfl hlen1, hs4]
  · rw [parse_type2 (2 :: r1 :: r2 :: r3 :: (toLeBytes s ++ (toLeBytes r ++ rtail)))
      rfl hlen2, hs24, hr28]
  · rw [parse_type3 (3 :: r1 :: r2 :: r3 :: (toLeBytes r ++ tail)) rfl hlen3, hr34]
  · rw [parse_type4 (4 :: r1 :: r2 :: r3 :: (toLeBytes r ++ tail)) rfl hlen4, hr44]

/-- Witness for C7: the test vectors of main.rs (`test_wg_parse`),
sender 3927566598 and receiver 350987235, round-trip through all four
message types; the Response instance is the minimum-length 12-byte
encoding (empty tail). -/
theorem parse_roundtrip_witness :
    WgPacket.parse (1 :: 0 :: 0 :: 0 :: (toLeBytes 3927566598 ++ [0, 0]))
      = some (.HandShakeInitiation 3927566598)
    ∧ WgPacket.parse (2 :: 0 :: 0 :: 0
        :: (toLeBytes 3927566598 ++ (toLeBytes 350987235 ++ [])))
      = some (.HandShakeResponse 3927566598 350987235)
    ∧ WgPacket.parse (3 :: 0 :: 0 :: 0 :: (toLeBytes 350987235 ++ [0, 0]))
      = some (.Cookie 350987235)
    ∧ WgPacket.parse (4 :: 0 :: 0 :: 0 :: (toLeBytes 350987235 ++ [0, 0]))
      = some (.Data 350987235) :=
  parse_roundtrip 3927566598 350987235 0 0 0 [0, 0] []
    (by decide) (by decide) (by decide)
